import Mathlib

/-!
Verification of the job orchestration subsystem of the
Collaborative-Workspace-Backend repository.

The definitions below are a shallow embedding of the TypeScript sources:
  * `src/models/job.model.ts` (job schema, statuses, types),
  * `src/services/job.service.ts` (`JobService`: create / getById /
    getAllForUser / cancel / retry),
  * `src/queues/job.queue.ts` (`addJob`, queue retry configuration),
  * `src/workers/job.worker.ts` (`processJob` and the worker's
    "failed" event handler).
The MongoDB collection is modelled as a list of records in insertion
order (`findOne` returns the first match), the BullMQ queue as a list of
dispatch entries in enqueue order, timestamps as naturals, and payloads
as opaque strings.  Fallible service calls return `Except ApiError`.
-/

namespace CollabJobs

/-- `JobStatus` from job.model.ts. -/
inductive JobStatus where
  | pending
  | processing
  | completed
  | failed
deriving DecidableEq, Repr

/-- `JobType` from job.model.ts. -/
inductive JobType where
  | CODE_EXECUTION
  | FILE_PROCESSING
  | DATA_ANALYSIS
  | EXPORT
deriving DecidableEq, Repr

/-- Payloads and results are opaque to the orchestrator (`Schema.Types.Mixed`). -/
abbrev Payload := String

/-- A document of the `jobs` collection (interface `IJob` of job.model.ts,
with the schema defaults: `attempts` 0, `maxAttempts` 3, `priority` 5,
nullable `result`/`error`/`startedAt`/`completedAt`, `createdAt` from
`timestamps: true`). -/
structure JobRecord where
  jobId : String
  type : JobType
  status : JobStatus
  payload : Payload
  result : Option Payload
  error : Option String
  attempts : Nat
  maxAttempts : Nat
  priority : Nat
  idempotencyKey : Option String
  userId : String
  createdAt : Nat
  startedAt : Option Nat
  completedAt : Option Nat
deriving DecidableEq, Repr

/-- `ApiError` of error.middleware.ts: an HTTP status code plus a message. -/
structure ApiError where
  statusCode : Nat
  message : String
deriving DecidableEq, Repr

/-- The `JobData` payload handed to `jobQueue.add` in job.queue.ts, together
with the BullMQ priority option chosen by `addJob`. -/
structure DispatchEntry where
  jobId : String
  type : JobType
  payload : Payload
  userId : String
  idempotencyKey : Option String
  priority : Nat
deriving DecidableEq, Repr

/-- `CreateJobInput` of validation.schemas.ts as the service receives it:
`priority` and `idempotencyKey` optional. -/
structure CreateJobInput where
  type : JobType
  payload : Payload
  priority : Option Nat
  idempotencyKey : Option String
deriving DecidableEq, Repr

/-- JavaScript `x || d` on an optional number: `undefined` and `0` are falsy
and yield the default. -/
def jsOrNat (x : Option Nat) (d : Nat) : Nat :=
  match x with
  | none => d
  | some v => if v = 0 then d else v

/-- `addJob` of job.queue.ts: append a dispatch entry; the default parameter
`priority = 5` applies only when the argument is `undefined`. -/
def addJob (queue : List DispatchEntry) (jobId : String) (type : JobType)
    (payload : Payload) (userId : String) (idempotencyKey : Option String)
    (priority : Option Nat) : List DispatchEntry :=
  queue ++ [{ jobId := jobId, type := type, payload := payload, userId := userId,
              idempotencyKey := idempotencyKey, priority := priority.getD 5 }]

/-- `attempts: 3` of `defaultJobOptions` in job.queue.ts: the broker runs at
most this many attempts per dispatch entry. -/
def bullAttempts : Nat := 3

/-- The idempotency guard's lookup in `JobService.create`:
`Job.findOne({ idempotencyKey, userId })`, first match in insertion order. -/
def findOneIdem (store : List JobRecord) (key userId : String) : Option JobRecord :=
  store.find? fun r => decide (r.idempotencyKey = some key ∧ r.userId = userId)

/-- `Job.findOne({ jobId, userId })`, first match in insertion order. -/
def findOneJob (store : List JobRecord) (jobId userId : String) : Option JobRecord :=
  store.find? fun r => decide (r.jobId = jobId ∧ r.userId = userId)

/-- `job.save()`: overwrite the first record matching `{ jobId, userId }`
with the updated document. -/
def saveJob (store : List JobRecord) (jobId userId : String)
    (f : JobRecord → JobRecord) : List JobRecord :=
  match store with
  | [] => []
  | r :: rest =>
      if r.jobId = jobId ∧ r.userId = userId then f r :: rest
      else r :: saveJob rest jobId userId f

/-- The document built by `Job.create` inside `JobService.create`: status
`PENDING`, `priority: input.priority || 5`, `maxAttempts: 3`, schema
defaults for the remaining fields. -/
def newJobRecord (jobId userId : String) (input : CreateJobInput) (now : Nat) :
    JobRecord :=
  { jobId := jobId, type := input.type, status := .pending,
    payload := input.payload, result := none, error := none,
    attempts := 0, maxAttempts := 3, priority := jsOrNat input.priority 5,
    idempotencyKey := input.idempotencyKey, userId := userId,
    createdAt := now, startedAt := none, completedAt := none }

/-- Result of a `JobService.create` call: the store and queue after the call
(the record write persists even when the enqueue rejects) and the returned
value or thrown error. -/
structure SubmitOutcome where
  store : List JobRecord
  queue : List DispatchEntry
  result : Except ApiError (JobRecord × Bool)
deriving Repr

/-- The non-duplicate tail of `JobService.create`: `Job.create` followed by
`addJob`.  `enqueueOk = false` models the broker rejecting the enqueue, in
which case the error propagates out of `create` but the record write has
already happened. -/
def createFresh (store : List JobRecord) (queue : List DispatchEntry)
    (userId : String) (input : CreateJobInput) (jobId : String) (now : Nat)
    (enqueueOk : Bool) : SubmitOutcome :=
  let job := newJobRecord jobId userId input now
  let store' := store ++ [job]
  if enqueueOk then
    { store := store',
      queue := addJob queue jobId input.type input.payload userId
                 input.idempotencyKey input.priority,
      result := .ok (job, false) }
  else
    { store := store', queue := queue,
      result := .error { statusCode := 500, message := "enqueue failed" } }

/-- `JobService.create` of job.service.ts: idempotency guard first (when a
key is supplied), then record creation and enqueue. -/
def JobService.create (store : List JobRecord) (queue : List DispatchEntry)
    (userId : String) (input : CreateJobInput) (jobId : String) (now : Nat)
    (enqueueOk : Bool) : SubmitOutcome :=
  match input.idempotencyKey with
  | some key =>
      match findOneIdem store key userId with
      | some existing => { store := store, queue := queue, result := .ok (existing, true) }
      | none => createFresh store queue userId input jobId now enqueueOk
  | none => createFresh store queue userId input jobId now enqueueOk

/-- `JobService.getById`: owner-scoped fetch, 404 when absent. -/
def JobService.getById (store : List JobRecord) (jobId userId : String) :
    Except ApiError JobRecord :=
  match findOneJob store jobId userId with
  | none => .error { statusCode := 404, message := "Job not found" }
  | some job => .ok job

/-- The Mongo filter of `JobService.getAllForUser`: always `userId`, plus the
optional `status` and `type` filters. -/
def matchesQuery (userId : String) (statusFilter : Option JobStatus)
    (typeFilter : Option JobType) (r : JobRecord) : Bool :=
  decide (r.userId = userId)
    && (match statusFilter with | none => true | some s => decide (r.status = s))
    && (match typeFilter with | none => true | some t => decide (r.type = t))

/-- `.sort({ createdAt: -1 })`: later-created records first. -/
def createdDesc (a b : JobRecord) : Prop := b.createdAt ≤ a.createdAt

instance : DecidableRel createdDesc := fun a b => Nat.decLe b.createdAt a.createdAt

instance : IsTotal JobRecord createdDesc :=
  ⟨fun a b => Nat.le_total b.createdAt a.createdAt⟩

instance : IsTrans JobRecord createdDesc :=
  ⟨fun _ _ _ hab hbc => Nat.le_trans hbc hab⟩

/-- The page, pagination metadata and flag returned by
`JobService.getAllForUser`. -/
structure ListOutcome where
  jobs : List JobRecord
  total : Nat
  limit : Nat
  offset : Nat
  hasMore : Bool
deriving Repr

/-- `JobService.getAllForUser`: filter by owner (and optional status/type),
sort by `createdAt` descending, apply `skip(offset)` / `limit(limit)` with
`limit = Math.min(options.limit || 20, 100)` and `offset = options.offset || 0`,
and report `hasMore: offset + jobs.length < total`. -/
def JobService.getAllForUser (store : List JobRecord) (userId : String)
    (statusFilter : Option JobStatus) (typeFilter : Option JobType)
    (limit offset : Option Nat) : ListOutcome :=
  let filtered := store.filter (matchesQuery userId statusFilter typeFilter)
  let lim := min (jsOrNat limit 20) 100
  let off := jsOrNat offset 0
  let page := ((filtered.insertionSort createdDesc).drop off).take lim
  { jobs := page, total := filtered.length, limit := lim, offset := off,
    hasMore := decide (off + page.length < filtered.length) }

/-- Result of a `JobService.cancel` call. -/
structure CancelOutcome where
  result : Except ApiError String
  store : List JobRecord
  queue : List DispatchEntry
deriving Repr

/-- The field updates `JobService.cancel` writes on a pending job. -/
def cancelUpdate (now : Nat) (j : JobRecord) : JobRecord :=
  { j with status := .failed, error := some "Cancelled by user",
           completedAt := some now }

/-- `JobService.cancel`: 404 when the owner-scoped lookup misses, 400 unless
the status is `PENDING`; otherwise best-effort removal of the dispatch entry
and the `FAILED`/`Cancelled by user`/`completedAt` update. -/
def JobService.cancel (store : List JobRecord) (queue : List DispatchEntry)
    (jobId userId : String) (now : Nat) : CancelOutcome :=
  match findOneJob store jobId userId with
  | none =>
      { result := .error { statusCode := 404, message := "Job not found" },
        store := store, queue := queue }
  | some job =>
      if job.status ≠ .pending then
        { result := .error { statusCode := 400, message := "Can only cancel pending jobs" },
          store := store, queue := queue }
      else
        { result := .ok "Job cancelled",
          store := saveJob store jobId userId (cancelUpdate now),
          queue := queue.filter fun e => !decide (e.jobId = jobId) }

/-- Result of a `JobService.retry` call. -/
structure RetryOutcome where
  result : Except ApiError JobRecord
  store : List JobRecord
  queue : List DispatchEntry
deriving Repr

/-- The field resets `JobService.retry` writes on a failed job. -/
def retryUpdate (j : JobRecord) : JobRecord :=
  { j with status := .pending, error := none, result := none,
           attempts := 0, startedAt := none, completedAt := none }

/-- `JobService.retry`: 404 when the owner-scoped lookup misses, 400 unless
the status is `FAILED`; otherwise reset the record, save it, and re-enqueue a
dispatch entry via `addJob(..., job.priority)`.  `enqueueOk = false` models
the broker rejecting the enqueue after the record was already saved. -/
def JobService.retry (store : List JobRecord) (queue : List DispatchEntry)
    (jobId userId : String) (enqueueOk : Bool) : RetryOutcome :=
  match findOneJob store jobId userId with
  | none =>
      { result := .error { statusCode := 404, message := "Job not found" },
        store := store, queue := queue }
  | some job =>
      if job.status ≠ .failed then
        { result := .error { statusCode := 400, message := "Can only retry failed jobs" },
          store := store, queue := queue }
      else
        let store' := saveJob store jobId userId retryUpdate
        if enqueueOk then
          { result := .ok (retryUpdate job), store := store',
            queue := addJob queue job.jobId job.type job.payload userId
                       job.idempotencyKey (some job.priority) }
        else
          { result := .error { statusCode := 500, message := "enqueue failed" },
            store := store', queue := queue }

/-! ### Worker (job.worker.ts) -/

/-- The first `findOneAndUpdate` of `processJob`: `PROCESSING`,
`startedAt = now`, `attempts = job.attemptsMade + 1`. -/
def startProcessing (attemptsMade now : Nat) (j : JobRecord) : JobRecord :=
  { j with status := .processing, startedAt := some now,
           attempts := attemptsMade + 1 }

/-- The success `findOneAndUpdate` of `processJob`: `COMPLETED`, store the
result, `completedAt = now`. -/
def completeJob (res : Payload) (now : Nat) (j : JobRecord) : JobRecord :=
  { j with status := .completed, result := some res, completedAt := some now }

/-- The worker's `failed` event handler: `FAILED`, the failure message, and
`completedAt = now`, written on every failed attempt. -/
def onFailedHandler (msg : String) (now : Nat) (j : JobRecord) : JobRecord :=
  { j with status := .failed, error := some msg, completedAt := some now }

/-- One failed execution attempt as the record sees it: the `PROCESSING`
update of `processJob` followed by the `failed`-event update. -/
def failedAttempt (j : JobRecord) (attemptsMade : Nat) (msg : String)
    (nowStart nowFail : Nat) : JobRecord :=
  onFailedHandler msg nowFail (startProcessing attemptsMade nowStart j)

/-- Modelled from the spec: BullMQ's retry policy (the broker implementation
is not part of the repository; `attempts: 3` is its configuration in
job.queue.ts).  After a failed attempt the entry is re-enqueued with backoff
exactly when the attempts made so far are below the configured maximum. -/
def bullRequeues (attemptsMade : Nat) : Bool :=
  decide (attemptsMade + 1 < bullAttempts)

/-! ### Dispatch queue dequeue ordering -/

/-- Modelled from the spec: the broker's dequeue step (the BullMQ
implementation is not part of the repository).  "Dequeue ordering is
priority-first (higher numeric priority served before lower), ties broken by
enqueue order (FIFO within a priority band)": the claimed entry is the
earliest-enqueued entry of maximal numeric priority, and it leaves the queue. -/
def popMax : List DispatchEntry → Option (DispatchEntry × List DispatchEntry)
  | [] => none
  | e :: rest =>
      match popMax rest with
      | none => some (e, rest)
      | some (m, rest') =>
          if m.priority ≤ e.priority then some (e, rest) else some (m, e :: rest')

/-- Repeated dequeue with explicit fuel (structural recursion; `popMax`
shrinks the queue, so `q.length` fuel drains it completely). -/
def drainFuel : Nat → List DispatchEntry → List DispatchEntry
  | 0, _ => []
  | fuel + 1, q =>
      match popMax q with
      | none => []
      | some (e, q') => e :: drainFuel fuel q'

/-- Modelled from the spec: the order in which workers are served the waiting
entries when no new entries arrive — dequeue until the queue is empty. -/
def drainQueue (q : List DispatchEntry) : List DispatchEntry :=
  drainFuel q.length q

/-! ### Single-job lifecycle transition system

The operations that can touch one job record, composed from the service and
worker updates above: worker attempts (claim then success or failure, with
BullMQ's automatic requeue while attempts remain), `cancel` and `retry`.
`entry` is the `attemptsMade` counter of the live dispatch entry for the job,
`none` when no entry is waiting or delayed. -/

structure WorkerSys where
  record : JobRecord
  entry : Option Nat
deriving Repr

/-- One transition of the job lifecycle.  A worker claims the entry only
while the broker still runs it (`attemptsMade < bullAttempts`, modelled from
the spec as BullMQ's bounded-attempts policy configured in job.queue.ts);
`cancel` requires `PENDING` and `retry` requires `FAILED` as in
job.service.ts. -/
inductive WorkerStep : WorkerSys → WorkerSys → Prop
  | succeed (s : WorkerSys) (a : Nat) (res : Payload) (n₁ n₂ : Nat)
      (hentry : s.entry = some a) (hlt : a < bullAttempts) :
      WorkerStep s ⟨completeJob res n₂ (startProcessing a n₁ s.record), none⟩
  | fail (s : WorkerSys) (a : Nat) (msg : String) (n₁ n₂ : Nat)
      (hentry : s.entry = some a) (hlt : a < bullAttempts) :
      WorkerStep s ⟨onFailedHandler msg n₂ (startProcessing a n₁ s.record),
                    if a + 1 < bullAttempts then some (a + 1) else none⟩
  | cancelStep (s : WorkerSys) (n : Nat) (h : s.record.status = .pending) :
      WorkerStep s ⟨cancelUpdate n s.record, none⟩
  | retryStep (s : WorkerSys) (h : s.record.status = .failed) :
      WorkerStep s ⟨retryUpdate s.record, some 0⟩

/-- States of one job reachable from its submission (`JobService.create`
writes the record with `attempts = 0` and enqueues a fresh entry) by any
sequence of lifecycle transitions. -/
inductive JobReachable : WorkerSys → Prop
  | submit (jobId userId : String) (input : CreateJobInput) (now : Nat) :
      JobReachable ⟨newJobRecord jobId userId input now, some 0⟩
  | step {s s' : WorkerSys} : JobReachable s → WorkerStep s s' → JobReachable s'

/-- A concrete submission input used by the witnesses. -/
def sampleInput : CreateJobInput :=
  { type := .CODE_EXECUTION, payload := "payload", priority := some 5,
    idempotencyKey := some "k1" }

/-- A concrete submission input without an idempotency key. -/
def sampleInputNoKey : CreateJobInput :=
  { type := .EXPORT, payload := "payload", priority := some 8,
    idempotencyKey := none }

/-- The spec's priority-ordering example: entries enqueued via `addJob` with
priorities 3, then 8, then 5. -/
def exampleQueue : List DispatchEntry :=
  addJob (addJob (addJob [] "j1" .EXPORT "p" "u1" none (some 3))
      "j2" .EXPORT "p" "u1" none (some 8))
    "j3" .EXPORT "p" "u1" none (some 5)

/-- A concrete failed record (a job whose attempts were exhausted), used by
the witnesses for the cancel/retry claims. -/
def sampleFailedJob : JobRecord :=
  { newJobRecord "j1" "u1" sampleInput 0 with
      status := .failed, error := some "boom", attempts := 3,
      startedAt := some 4, completedAt := some 9 }

/-- A concrete completed record, used by the cancel witness. -/
def sampleCompletedJob : JobRecord :=
  { newJobRecord "j2" "u1" sampleInput 0 with
      status := .completed, result := some "out", attempts := 1,
      startedAt := some 4, completedAt := some 9 }

/-- "Higher numeric priority served before lower" as a relation on dispatch
entries: the left entry's priority is at least the right one's. -/
def priorityGe (a b : DispatchEntry) : Prop := b.priority ≤ a.priority

/-! ### Supporting lemmas -/

theorem findOneJob_saveJob {store : List JobRecord} {jid u : String}
    {job : JobRecord} (f : JobRecord → JobRecord)
    (hfind : findOneJob store jid u = some job)
    (hid : (f job).jobId = job.jobId) (huid : (f job).userId = job.userId) :
    findOneJob (saveJob store jid u f) jid u = some (f job) := by
  induction store with
  | nil => simp [findOneJob] at hfind
  | cons r rest ih =>
      by_cases h : r.jobId = jid ∧ r.userId = u
      · have hr : job = r := by
          simp [findOneJob, List.find?_cons_of_pos, h] at hfind
          exact hfind.symm
        subst hr
        have hp : (f job).jobId = jid ∧ (f job).userId = u := by
          constructor
          · rw [hid]; exact h.1
          · rw [huid]; exact h.2
        simp [saveJob, h, findOneJob, List.find?_cons_of_pos, hp]
      · have hfind' : findOneJob rest jid u = some job := by
          simpa [findOneJob, List.find?_cons_of_neg, h] using hfind
        simp [saveJob, h, findOneJob, List.find?_cons_of_neg]
        simpa [findOneJob] using ih hfind'

theorem findOneIdem_append {store : List JobRecord} {key u : String}
    {recd : JobRecord} (hnone : findOneIdem store key u = none)
    (hkey : recd.idempotencyKey = some key) (huid : recd.userId = u) :
    findOneIdem (store ++ [recd]) key u = some recd := by
  induction store with
  | nil => simp [findOneIdem, List.find?_cons_of_pos, hkey, huid]
  | cons r rest ih =>
      have h1 : ¬(r.idempotencyKey = some key ∧ r.userId = u) := by
        intro hc
        simp [findOneIdem, List.find?_cons_of_pos, hc] at hnone
      have h2 : findOneIdem rest key u = none := by
        simpa [findOneIdem, List.find?_cons_of_neg, h1] using hnone
      simpa [findOneIdem, List.find?_cons_of_neg, h1] using ih h2

theorem popMax_eq_none {q : List DispatchEntry} : popMax q = none ↔ q = [] := by
  cases q with
  | nil => simp [popMax]
  | cons e rest =>
      rw [popMax]
      split
      · simp
      · split <;> simp

theorem popMax_split {q : List DispatchEntry} {e : DispatchEntry}
    {q' : List DispatchEntry} (h : popMax q = some (e, q')) :
    ∃ l₁ l₂, q = l₁ ++ e :: l₂ ∧ q' = l₁ ++ l₂ ∧
      ∀ x ∈ l₁, x.priority < e.priority := by
  induction q generalizing e q' with
  | nil => simp [popMax] at h
  | cons a rest ih =>
      rw [popMax] at h
      split at h
      · simp only [Option.some.injEq, Prod.mk.injEq] at h
        obtain ⟨h1, h2⟩ := h
        subst h1
        subst h2
        exact ⟨[], _, rfl, rfl, by simp⟩
      next m rest' hr =>
        split at h
        next hc =>
          simp only [Option.some.injEq, Prod.mk.injEq] at h
          obtain ⟨h1, h2⟩ := h
          subst h1
          subst h2
          exact ⟨[], _, rfl, rfl, by simp⟩
        next hc =>
          simp only [Option.some.injEq, Prod.mk.injEq] at h
          obtain ⟨h1, h2⟩ := h
          subst h1
          subst h2
          obtain ⟨r₁, r₂, hq, hq', hlt⟩ := ih hr
          refine ⟨a :: r₁, r₂, by simp [hq], by simp [hq'], ?_⟩
          intro x hx
          rcases List.mem_cons.mp hx with rfl | hxr
          · exact Nat.lt_of_not_le hc
          · exact hlt x hxr

theorem popMax_max {q : List DispatchEntry} {e : DispatchEntry}
    {q' : List DispatchEntry} (h : popMax q = some (e, q')) :
    ∀ x ∈ q, x.priority ≤ e.priority := by
  induction q generalizing e q' with
  | nil => simp [popMax] at h
  | cons a rest ih =>
      rw [popMax] at h
      split at h
      next hr =>
        simp only [Option.some.injEq, Prod.mk.injEq] at h
        obtain ⟨h1, h2⟩ := h
        subst h1
        intro x hx
        rcases List.mem_cons.mp hx with rfl | hxr
        · exact Nat.le_refl _
        · rw [popMax_eq_none.mp hr] at hxr
          simp at hxr
      next m rest' hr =>
        split at h
        next hc =>
          simp only [Option.some.injEq, Prod.mk.injEq] at h
          obtain ⟨h1, h2⟩ := h
          subst h1
          intro x hx
          rcases List.mem_cons.mp hx with rfl | hxr
          · exact Nat.le_refl _
          · exact Nat.le_trans (ih hr x hxr) hc
        next hc =>
          simp only [Option.some.injEq, Prod.mk.injEq] at h
          obtain ⟨h1, h2⟩ := h
          subst h1
          intro x hx
          rcases List.mem_cons.mp hx with rfl | hxr
          · exact Nat.le_of_lt (Nat.lt_of_not_le hc)
          · exact ih hr x hxr

theorem popMax_length {q : List DispatchEntry} {e : DispatchEntry}
    {q' : List DispatchEntry} (h : popMax q = some (e, q')) :
    q'.length + 1 = q.length := by
  obtain ⟨l₁, l₂, hq, hq', _⟩ := popMax_split h
  subst hq hq'
  simp
  omega

theorem popMax_mem_of_mem {q : List DispatchEntry} {e : DispatchEntry}
    {q' : List DispatchEntry} (h : popMax q = some (e, q')) :
    ∀ x ∈ q', x ∈ q := by
  obtain ⟨l₁, l₂, hq, hq', _⟩ := popMax_split h
  subst hq hq'
  intro x hx
  rcases List.mem_append.mp hx with h1 | h2
  · exact List.mem_append.mpr (Or.inl h1)
  · exact List.mem_append.mpr (Or.inr (List.mem_cons_of_mem _ h2))

theorem drainFuel_mem (fuel : Nat) :
    ∀ (q : List DispatchEntry) (x : DispatchEntry), x ∈ drainFuel fuel q → x ∈ q := by
  induction fuel with
  | zero => intro q x hx; simp [drainFuel] at hx
  | succ n ih =>
      intro q x hx
      rw [drainFuel] at hx
      cases hp : popMax q with
      | none => rw [hp] at hx; simp at hx
      | some pr =>
          obtain ⟨e, q'⟩ := pr
          rw [hp] at hx
          rcases List.mem_cons.mp hx with rfl | hxr
          · obtain ⟨l₁, l₂, hqeq, _, _⟩ := popMax_split hp
            subst hqeq
            exact List.mem_append.mpr (Or.inr (List.mem_cons_self _ _))
          · exact popMax_mem_of_mem hp x (ih q' x hxr)

theorem drainFuel_sorted (fuel : Nat) :
    ∀ q : List DispatchEntry, List.Sorted priorityGe (drainFuel fuel q) := by
  induction fuel with
  | zero => intro q; simp [drainFuel]
  | succ n ih =>
      intro q
      rw [drainFuel]
      cases hp : popMax q with
      | none => simp
      | some pr =>
          obtain ⟨e, q'⟩ := pr
          refine List.sorted_cons.mpr ⟨?_, ih q'⟩
          intro b hb
          exact popMax_max hp b (popMax_mem_of_mem hp b (drainFuel_mem n q' b hb))

theorem drainFuel_filter (p : Nat) :
    ∀ (fuel : Nat) (q : List DispatchEntry), q.length ≤ fuel →
      (drainFuel fuel q).filter (fun x => decide (x.priority = p)) =
        q.filter (fun x => decide (x.priority = p)) := by
  intro fuel
  induction fuel with
  | zero =>
      intro q hq
      have : q = [] := List.eq_nil_of_length_eq_zero (Nat.le_zero.mp hq)
      subst this
      simp [drainFuel]
  | succ n ih =>
      intro q hq
      rw [drainFuel]
      cases hp : popMax q with
      | none =>
          have : q = [] := popMax_eq_none.mp hp
          subst this
          simp
      | some pr =>
          obtain ⟨e, q'⟩ := pr
          obtain ⟨l₁, l₂, hqeq, hq'eq, hlt⟩ := popMax_split hp
          have hlen : q'.length ≤ n := by
            have := popMax_length hp
            omega
          by_cases hep : e.priority = p
          · have hl₁ : l₁.filter (fun x => decide (x.priority = p)) = [] := by
              rw [List.filter_eq_nil_iff]
              intro a ha
              simp only [decide_eq_true_eq]
              have := hlt a ha
              omega
            rw [List.filter_cons, ih q' hlen, hqeq, hq'eq]
            simp [List.filter_append, List.filter_cons, hep, hl₁]
          · rw [List.filter_cons, ih q' hlen, hqeq, hq'eq]
            simp [List.filter_append, List.filter_cons, hep]

theorem jobReachable_invariant {s : WorkerSys} (h : JobReachable s) :
    s.record.maxAttempts = 3 ∧ s.record.attempts ≤ 3 := by
  induction h with
  | submit jobId userId input now => exact ⟨rfl, Nat.zero_le 3⟩
  | step hr hstep ih =>
      cases hstep with
      | succeed a res n₁ n₂ hentry hlt =>
          refine ⟨?_, ?_⟩
          · simpa [completeJob, startProcessing] using ih.1
          · have ha : a < 3 := hlt
            simp only [completeJob, startProcessing]
            omega
      | fail a msg n₁ n₂ hentry hlt =>
          refine ⟨?_, ?_⟩
          · simpa [onFailedHandler, startProcessing] using ih.1
          · have ha : a < 3 := hlt
            simp only [onFailedHandler, startProcessing]
            omega
      | cancelStep n hp =>
          exact ⟨by simpa [cancelUpdate] using ih.1, by simpa [cancelUpdate] using ih.2⟩
      | retryStep hp =>
          exact ⟨by simpa [retryUpdate] using ih.1, by simp [retryUpdate]⟩

/-! ### The claims -/

/-- C1: when the submission carries an idempotency key and a record with the
same `(ownerId, idempotencyKey)` pair already exists, `JobService.create`
returns that record with `duplicate = true` and changes neither the store nor
the queue; consequently a first submission followed by a second with the same
key yields the same record, `duplicate = true` and the same `jobId`. -/
theorem submit_idempotency_guard (store : List JobRecord)
    (queue : List DispatchEntry) (u : String) (input : CreateJobInput)
    (key jid jid₂ : String) (now now₂ : Nat) (ok ok₂ : Bool)
    (hkey : input.idempotencyKey = some key) :
    (∀ r, findOneIdem store key u = some r →
        JobService.create store queue u input jid now ok =
          { store := store, queue := queue, result := .ok (r, true) }) ∧
    (findOneIdem store key u = none →
        (JobService.create store queue u input jid now true).result =
          .ok (newJobRecord jid u input now, false) ∧
        (newJobRecord jid u input now).jobId = jid ∧
        (JobService.create (JobService.create store queue u input jid now true).store
            (JobService.create store queue u input jid now true).queue
            u input jid₂ now₂ ok₂).result =
          .ok (newJobRecord jid u input now, true)) := by
  constructor
  · intro r hr
    simp [JobService.create, hkey, hr]
  · intro hnone
    have h1 : JobService.create store queue u input jid now true =
        createFresh store queue u input jid now true := by
      simp [JobService.create, hkey, hnone]
    have hstore : (JobService.create store queue u input jid now true).store =
        store ++ [newJobRecord jid u input now] := by
      rw [h1]
      simp [createFresh]
    have hfind2 : findOneIdem (store ++ [newJobRecord jid u input now]) key u =
        some (newJobRecord jid u input now) :=
      findOneIdem_append hnone (by simp [newJobRecord, hkey]) rfl
    refine ⟨?_, rfl, ?_⟩
    · rw [h1]
      simp [createFresh]
    · rw [hstore]
      simp [JobService.create, hkey, hfind2]

/-- Witness for C1 at a concrete first/second submission with key "k1". -/
theorem submit_idempotency_guard_witness :
    (∀ r, findOneIdem [] "k1" "u1" = some r →
        JobService.create [] [] "u1" sampleInput "j1" 0 true =
          { store := [], queue := [], result := .ok (r, true) }) ∧
    (findOneIdem [] "k1" "u1" = none →
        (JobService.create [] [] "u1" sampleInput "j1" 0 true).result =
          .ok (newJobRecord "j1" "u1" sampleInput 0, false) ∧
        (newJobRecord "j1" "u1" sampleInput 0).jobId = "j1" ∧
        (JobService.create (JobService.create [] [] "u1" sampleInput "j1" 0 true).store
            (JobService.create [] [] "u1" sampleInput "j1" 0 true).queue
            "u1" sampleInput "j2" 1 true).result =
          .ok (newJobRecord "j1" "u1" sampleInput 0, true)) :=
  submit_idempotency_guard [] [] "u1" sampleInput "k1" "j1" "j2" 0 1 true true rfl

/-- C2 counterexample: on the very first failed attempt (`attempts = 1 <
maxAttempts = 3`) the worker's `failed` handler already rewrites the record
to `FAILED`, so during the backoff window the status is not left at its last
known value (`PROCESSING`) and `FAILED` is reached although
`attempts ≠ maxAttempts`. -/
theorem worker_early_failed_mark_cex :
    (failedAttempt (newJobRecord "j1" "u1" sampleInputNoKey 0) 0 "boom" 1 2).status
      = .failed ∧
    (failedAttempt (newJobRecord "j1" "u1" sampleInputNoKey 0) 0 "boom" 1 2).attempts = 1 ∧
    (failedAttempt (newJobRecord "j1" "u1" sampleInputNoKey 0) 0 "boom" 1 2).attempts <
      (failedAttempt (newJobRecord "j1" "u1" sampleInputNoKey 0) 0 "boom" 1 2).maxAttempts ∧
    bullRequeues 0 = true ∧
    (startProcessing 0 1 (newJobRecord "j1" "u1" sampleInputNoKey 0)).status
      = .processing :=
  ⟨rfl, rfl, by decide, rfl, rfl⟩

/-- C2 (amended): on every failed attempt the `failed` handler sets
`status = FAILED`, records the failure reason and `completedAt = now`, and
sets `attempts = attemptsMade + 1` — also when attempts remain, in which case
the broker still re-enqueues the entry with backoff
(`bullRequeues`), and the next attempt moves the record back to
`PROCESSING`.  The record is not left at its last known status during the
delay window, and `FAILED` is not reserved for `attempts = maxAttempts`. -/
theorem worker_failure_always_marks_failed (j : JobRecord) (a : Nat)
    (msg : String) (n₁ n₂ : Nat) :
    ((failedAttempt j a msg n₁ n₂).status = .failed ∧
     (failedAttempt j a msg n₁ n₂).error = some msg ∧
     (failedAttempt j a msg n₁ n₂).completedAt = some n₂ ∧
     (failedAttempt j a msg n₁ n₂).attempts = a + 1) ∧
    (bullRequeues a = true ↔ a + 1 < bullAttempts) ∧
    (∀ n₃, (startProcessing (a + 1) n₃ (failedAttempt j a msg n₁ n₂)).status
      = .processing) := by
  refine ⟨⟨rfl, rfl, rfl, rfl⟩, ?_, fun n₃ => rfl⟩
  simp [bullRequeues]

/-- C3 counterexample: with an empty store and a failing enqueue, `create`
throws, yet the freshly written record stays in the store in `PENDING`
status — submission did not succeed but a `PENDING` record is left behind. -/
theorem submit_enqueue_failure_cex :
    (JobService.create [] [] "u1" sampleInputNoKey "j1" 0 false).result =
      .error { statusCode := 500, message := "enqueue failed" } ∧
    (JobService.create [] [] "u1" sampleInputNoKey "j1" 0 false).store =
      [newJobRecord "j1" "u1" sampleInputNoKey 0] ∧
    (newJobRecord "j1" "u1" sampleInputNoKey 0).status = .pending :=
  ⟨rfl, rfl, rfl⟩

/-- C3 (amended): without an idempotency hit, when the enqueue fails the
submission fails outright (the error propagates to the caller) and the queue
is unchanged, but the job record has already been written and remains in the
store in `PENDING` status — there is no rollback. -/
theorem submit_enqueue_failure (store : List JobRecord)
    (queue : List DispatchEntry) (u : String) (input : CreateJobInput)
    (jid : String) (now : Nat)
    (hnohit : input.idempotencyKey = none ∨
      ∃ k, input.idempotencyKey = some k ∧ findOneIdem store k u = none) :
    JobService.create store queue u input jid now false =
      { store := store ++ [newJobRecord jid u input now], queue := queue,
        result := .error { statusCode := 500, message := "enqueue failed" } } ∧
    (newJobRecord jid u input now).status = .pending := by
  refine ⟨?_, rfl⟩
  rcases hnohit with hnone | ⟨k, hk, hmiss⟩
  · simp [JobService.create, hnone, createFresh]
  · simp [JobService.create, hk, hmiss, createFresh]

/-- Witness for C3 (amended) at a concrete keyless submission. -/
theorem submit_enqueue_failure_witness :
    JobService.create [] [] "u1" sampleInputNoKey "j1" 0 false =
      { store := [] ++ [newJobRecord "j1" "u1" sampleInputNoKey 0], queue := [],
        result := .error { statusCode := 500, message := "enqueue failed" } } ∧
    (newJobRecord "j1" "u1" sampleInputNoKey 0).status = .pending :=
  submit_enqueue_failure [] [] "u1" sampleInputNoKey "j1" 0 (Or.inl rfl)

/-- C4: the dispatch queue serves by priority — every drain of the queue is
sorted by descending numeric priority, the entry claimed by `popMax` has
maximal priority among the waiting entries, entries of equal priority keep
their FIFO enqueue order (draining preserves each priority band as a
subsequence), and the spec's example (enqueue priorities 3, 8, 5) dequeues
as 8, 5, 3. -/
theorem dequeue_priority_order :
    (∀ q : List DispatchEntry, List.Sorted priorityGe (drainQueue q)) ∧
    (∀ (q : List DispatchEntry) (e : DispatchEntry) (q' : List DispatchEntry),
        popMax q = some (e, q') → ∀ x ∈ q, x.priority ≤ e.priority) ∧
    (∀ (q : List DispatchEntry) (p : Nat),
        (drainQueue q).filter (fun x => decide (x.priority = p)) =
          q.filter (fun x => decide (x.priority = p))) ∧
    (drainQueue exampleQueue).map DispatchEntry.priority = [8, 5, 3] := by
  refine ⟨fun q => drainFuel_sorted q.length q,
          fun q e q' h => popMax_max h,
          fun q p => drainFuel_filter p q.length q (Nat.le_refl _),
          rfl⟩

/-- C5: along every lifecycle (submission, worker attempts with automatic
retries, cancel, retry) a job record satisfies `attempts ≤ maxAttempts`. -/
theorem attempts_le_maxAttempts {s : WorkerSys} (h : JobReachable s) :
    s.record.attempts ≤ s.record.maxAttempts := by
  have k := jobReachable_invariant h
  omega

/-- Witness for C5 at the state reached by a concrete submission. -/
theorem attempts_le_maxAttempts_witness :
    (WorkerSys.mk (newJobRecord "j1" "u1" sampleInput 0) (some 0)).record.attempts ≤
      (WorkerSys.mk (newJobRecord "j1" "u1" sampleInput 0) (some 0)).record.maxAttempts :=
  attempts_le_maxAttempts (JobReachable.submit "j1" "u1" sampleInput 0)

/-- C6: `cancel` succeeds exactly on a `PENDING` record, rewriting it to
`FAILED` with `error = "Cancelled by user"` and `completedAt = now`; on a
record in any other status (`PROCESSING`, `COMPLETED` or `FAILED`) it
returns the invalid-state error and leaves store and queue unchanged. -/
theorem cancel_only_pending (store : List JobRecord)
    (queue : List DispatchEntry) (jid u : String) (now : Nat)
    (job : JobRecord) (hfind : findOneJob store jid u = some job) :
    (job.status = .pending →
        (JobService.cancel store queue jid u now).result = .ok "Job cancelled" ∧
        findOneJob (JobService.cancel store queue jid u now).store jid u =
          some (cancelUpdate now job) ∧
        (cancelUpdate now job).status = .failed ∧
        (cancelUpdate now job).error = some "Cancelled by user" ∧
        (cancelUpdate now job).completedAt = some now) ∧
    (job.status ≠ .pending →
        (JobService.cancel store queue jid u now).result =
          .error { statusCode := 400, message := "Can only cancel pending jobs" } ∧
        (JobService.cancel store queue jid u now).store = store ∧
        (JobService.cancel store queue jid u now).queue = queue) := by
  constructor
  · intro hp
    have hsave := findOneJob_saveJob (cancelUpdate now) hfind rfl rfl
    refine ⟨?_, ?_, rfl, rfl, rfl⟩
    · simp [JobService.cancel, hfind, hp]
    · simpa [JobService.cancel, hfind, hp] using hsave
  · intro hp
    refine ⟨?_, ?_, ?_⟩ <;> simp [JobService.cancel, hfind, hp]

/-- Witness for C6: cancelling a concrete pending job and a concrete
completed job. -/
theorem cancel_only_pending_witness :
    ((newJobRecord "j1" "u1" sampleInput 0).status = .pending →
        (JobService.cancel [newJobRecord "j1" "u1" sampleInput 0] [] "j1" "u1" 7).result
          = .ok "Job cancelled" ∧
        findOneJob (JobService.cancel [newJobRecord "j1" "u1" sampleInput 0] [] "j1" "u1" 7).store
            "j1" "u1" = some (cancelUpdate 7 (newJobRecord "j1" "u1" sampleInput 0)) ∧
        (cancelUpdate 7 (newJobRecord "j1" "u1" sampleInput 0)).status = .failed ∧
        (cancelUpdate 7 (newJobRecord "j1" "u1" sampleInput 0)).error =
          some "Cancelled by user" ∧
        (cancelUpdate 7 (newJobRecord "j1" "u1" sampleInput 0)).completedAt = some 7) ∧
    ((newJobRecord "j1" "u1" sampleInput 0).status ≠ .pending →
        (JobService.cancel [newJobRecord "j1" "u1" sampleInput 0] [] "j1" "u1" 7).result =
          .error { statusCode := 400, message := "Can only cancel pending jobs" } ∧
        (JobService.cancel [newJobRecord "j1" "u1" sampleInput 0] [] "j1" "u1" 7).store =
          [newJobRecord "j1" "u1" sampleInput 0] ∧
        (JobService.cancel [newJobRecord "j1" "u1" sampleInput 0] [] "j1" "u1" 7).queue = []) :=
  cancel_only_pending [newJobRecord "j1" "u1" sampleInput 0] [] "j1" "u1" 7
    (newJobRecord "j1" "u1" sampleInput 0) (by decide)

/-- C7: `retry` succeeds exactly on a `FAILED` record; on success it resets
the record to `PENDING` with `attempts = 0`, clears `error`, `result`,
`startedAt` and `completedAt`, and appends a fresh dispatch entry for the
same `jobId` at the record's priority; on a non-`FAILED` record it returns
the invalid-state error and leaves store and queue unchanged. -/
theorem retry_only_failed (store : List JobRecord)
    (queue : List DispatchEntry) (jid u : String) (job : JobRecord)
    (hfind : findOneJob store jid u = some job) :
    (job.status = .failed →
        (JobService.retry store queue jid u true).result = .ok (retryUpdate job) ∧
        (retryUpdate job).status = .pending ∧
        (retryUpdate job).attempts = 0 ∧
        (retryUpdate job).error = none ∧
        (retryUpdate job).result = none ∧
        (retryUpdate job).startedAt = none ∧
        (retryUpdate job).completedAt = none ∧
        findOneJob (JobService.retry store queue jid u true).store jid u =
          some (retryUpdate job) ∧
        (JobService.retry store queue jid u true).queue =
          queue ++ [{ jobId := job.jobId, type := job.type,
                      payload := job.payload, userId := u,
                      idempotencyKey := job.idempotencyKey,
                      priority := job.priority }]) ∧
    (job.status ≠ .failed →
        (JobService.retry store queue jid u true).result =
          .error { statusCode := 400, message := "Can only retry failed jobs" } ∧
        (JobService.retry store queue jid u true).store = store ∧
        (JobService.retry store queue jid u true).queue = queue) := by
  constructor
  · intro hs
    have hsave := findOneJob_saveJob retryUpdate hfind rfl rfl
    refine ⟨?_, rfl, rfl, rfl, rfl, rfl, rfl, ?_, ?_⟩
    · simp [JobService.retry, hfind, hs]
    · simpa [JobService.retry, hfind, hs] using hsave
    · simp [JobService.retry, hfind, hs, addJob]
  · intro hs
    refine ⟨?_, ?_, ?_⟩ <;> simp [JobService.retry, hfind, hs]

/-- Witness for C7: retrying a concrete failed job. -/
theorem retry_only_failed_witness :
    (sampleFailedJob.status = .failed →
        (JobService.retry [sampleFailedJob] [] "j1" "u1" true).result =
          .ok (retryUpdate sampleFailedJob) ∧
        (retryUpdate sampleFailedJob).status = .pending ∧
        (retryUpdate sampleFailedJob).attempts = 0 ∧
        (retryUpdate sampleFailedJob).error = none ∧
        (retryUpdate sampleFailedJob).result = none ∧
        (retryUpdate sampleFailedJob).startedAt = none ∧
        (retryUpdate sampleFailedJob).completedAt = none ∧
        findOneJob (JobService.retry [sampleFailedJob] [] "j1" "u1" true).store
            "j1" "u1" = some (retryUpdate sampleFailedJob) ∧
        (JobService.retry [sampleFailedJob] [] "j1" "u1" true).queue =
          [] ++ [{ jobId := sampleFailedJob.jobId, type := sampleFailedJob.type,
                   payload := sampleFailedJob.payload, userId := "u1",
                   idempotencyKey := sampleFailedJob.idempotencyKey,
                   priority := sampleFailedJob.priority }]) ∧
    (sampleFailedJob.status ≠ .failed →
        (JobService.retry [sampleFailedJob] [] "j1" "u1" true).result =
          .error { statusCode := 400, message := "Can only retry failed jobs" } ∧
        (JobService.retry [sampleFailedJob] [] "j1" "u1" true).store =
          [sampleFailedJob] ∧
        (JobService.retry [sampleFailedJob] [] "j1" "u1" true).queue = []) :=
  retry_only_failed [sampleFailedJob] [] "j1" "u1" sampleFailedJob (by decide)

/-- C8 counterexample: the list request `limit = 0` is treated as "no limit"
by `options.limit || 20`, so with one matching record the page holds one
record although `min(limit, 100) = 0` — the claim's bound fails for a given
limit of 0. -/
theorem list_limit_zero_cex :
    (JobService.getAllForUser [newJobRecord "j1" "u1" sampleInput 0] "u1"
        none none (some 0) none).jobs.length = 1 ∧
    ¬((JobService.getAllForUser [newJobRecord "j1" "u1" sampleInput 0] "u1"
        none none (some 0) none).jobs.length ≤ min 0 100) := by
  constructor
  · rfl
  · decide

/-- C8 (amended): a page holds at most `min(limit, 100)` records when a
positive limit is given, and at most 20 when the limit is absent or 0 (a
zero limit is falsy and falls back to the default); the offset defaults
to 0, the page is ordered by `createdAt` descending, and `hasMore` is true
exactly when `offset` plus the number of returned records is below the
total count. -/
theorem list_pagination (store : List JobRecord) (u : String)
    (sf : Option JobStatus) (tf : Option JobType) (limit offset : Option Nat) :
    (∀ l, limit = some l → 0 < l →
        (JobService.getAllForUser store u sf tf limit offset).jobs.length ≤
          min l 100) ∧
    ((limit = none ∨ limit = some 0) →
        (JobService.getAllForUser store u sf tf limit offset).jobs.length ≤ 20) ∧
    (JobService.getAllForUser store u sf tf limit none =
        JobService.getAllForUser store u sf tf limit (some 0)) ∧
    List.Sorted createdDesc (JobService.getAllForUser store u sf tf limit offset).jobs ∧
    ((JobService.getAllForUser store u sf tf limit offset).hasMore = true ↔
        (JobService.getAllForUser store u sf tf limit offset).offset +
          (JobService.getAllForUser store u sf tf limit offset).jobs.length <
          (JobService.getAllForUser store u sf tf limit offset).total) := by
  refine ⟨?_, ?_, ?_, ?_, ?_⟩
  · intro l hl hpos
    subst hl
    have hjs : jsOrNat (some l) 20 = l := by
      simp only [jsOrNat]
      rw [if_neg (by omega)]
    simp only [JobService.getAllForUser, hjs]
    rw [List.length_take]
    exact Nat.min_le_left _ _
  · intro hl
    rcases hl with rfl | rfl <;>
      · simp only [JobService.getAllForUser, jsOrNat]
        rw [List.length_take]
        simp
  · simp [JobService.getAllForUser, jsOrNat]
  · simp only [JobService.getAllForUser]
    exact List.Pairwise.sublist
      ((List.take_sublist _ _).trans (List.drop_sublist _ _))
      (List.sorted_insertionSort createdDesc _)
  · simp [JobService.getAllForUser]

/-- C9: `getById` answers with the same `NotFound` error both when no record
carries the job id and when records with that id exist but none belongs to
the caller, so a caller cannot distinguish another owner's job from a
non-existent one. -/
theorem getById_no_existence_leak (store : List JobRecord) (jid u : String)
    (h : (∀ r ∈ store, r.jobId ≠ jid) ∨
         (∀ r ∈ store, r.jobId = jid → r.userId ≠ u)) :
    JobService.getById store jid u =
      .error { statusCode := 404, message := "Job not found" } := by
  have hnone : findOneJob store jid u = none := by
    rw [findOneJob, List.find?_eq_none]
    intro r hr
    simp only [decide_eq_true_eq, not_and]
    intro h1 h2
    rcases h with ha | hb
    · exact ha r hr h1
    · exact hb r hr h1 h2
  simp [JobService.getById, hnone]

/-- Witness for C9: a concrete store holding another owner's job. -/
theorem getById_no_existence_leak_witness :
    JobService.getById [newJobRecord "j1" "other" sampleInput 0] "j1" "u1" =
      .error { statusCode := 404, message := "Job not found" } :=
  getById_no_existence_leak [newJobRecord "j1" "other" sampleInput 0] "j1" "u1"
    (Or.inr (by decide))

/-- C10: a successful `retry` modifies only `status`, `attempts`, `error`,
`result`, `startedAt` and `completedAt`; the record's `jobId`, `type`,
`payload`, `priority`, `maxAttempts`, `idempotencyKey`, `userId` and
`createdAt` are unchanged. -/
theorem retry_frame (store : List JobRecord) (queue : List DispatchEntry)
    (jid u : String) (job : JobRecord)
    (hfind : findOneJob store jid u = some job) (hs : job.status = .failed) :
    (JobService.retry store queue jid u true).result = .ok (retryUpdate job) ∧
    (retryUpdate job).jobId = job.jobId ∧
    (retryUpdate job).type = job.type ∧
    (retryUpdate job).payload = job.payload ∧
    (retryUpdate job).priority = job.priority ∧
    (retryUpdate job).maxAttempts = job.maxAttempts ∧
    (retryUpdate job).idempotencyKey = job.idempotencyKey ∧
    (retryUpdate job).userId = job.userId ∧
    (retryUpdate job).createdAt = job.createdAt := by
  refine ⟨?_, rfl, rfl, rfl, rfl, rfl, rfl, rfl, rfl⟩
  simp [JobService.retry, hfind, hs]

/-- Witness for C10: the frame condition at a concrete failed job. -/
theorem retry_frame_witness :
    (JobService.retry [sampleFailedJob] [] "j1" "u1" true).result =
      .ok (retryUpdate sampleFailedJob) ∧
    (retryUpdate sampleFailedJob).jobId = sampleFailedJob.jobId ∧
    (retryUpdate sampleFailedJob).type = sampleFailedJob.type ∧
    (retryUpdate sampleFailedJob).payload = sampleFailedJob.payload ∧
    (retryUpdate sampleFailedJob).priority = sampleFailedJob.priority ∧
    (retryUpdate sampleFailedJob).maxAttempts = sampleFailedJob.maxAttempts ∧
    (retryUpdate sampleFailedJob).idempotencyKey = sampleFailedJob.idempotencyKey ∧
    (retryUpdate sampleFailedJob).userId = sampleFailedJob.userId ∧
    (retryUpdate sampleFailedJob).createdAt = sampleFailedJob.createdAt :=
  retry_frame [sampleFailedJob] [] "j1" "u1" sampleFailedJob (by decide) (by decide)

end CollabJobs
